import Mathlib

/-!
Shallow embedding of the Redis worker registry
(`pkg/worker_registry/redis/registry.go` of aescanero/dago-adapters).

Workers are tracked as JSON records in a key-value store under the key
`dago:workers:{id}`; health is derived from heartbeat age against a TTL.
Store interactions (Get / Set / Del / Scan over the redis client) are
modelled by explicit oracle parameters describing the outcome of each
call the Go function makes, and each operation reports the store
mutations it performed, so that error handling and persistence behaviour
are observable in the model.
-/

namespace DagoRegistry

/-- Worker capability class (`ports.WorkerType`): Executor or Router. -/
inductive WorkerType where
  | executor
  | router
  deriving DecidableEq, Repr

/-- Worker status (`ports.WorkerStatus`): Idle and Busy are self-reported,
Unhealthy is derived at read time. -/
inductive WorkerStatus where
  | idle
  | busy
  | unhealthy
  deriving DecidableEq, Repr

/-- `ports.WorkerInfo`: the record stored per worker. Timestamps are
modelled as integers (instants on a common clock). -/
structure WorkerInfo where
  id : String
  type : WorkerType
  status : WorkerStatus
  registeredAt : Int
  lastHeartbeat : Int
  currentTask : String
  pendingTasks : Int
  deriving DecidableEq, Repr

/-- A stored payload: either bytes that decode to a record, or corrupt
bytes that fail `json.Unmarshal`. -/
inductive StoredVal where
  | good (w : WorkerInfo)
  | corrupt
  deriving DecidableEq, Repr

/-- `json.Marshal` on a `WorkerInfo` (total for this struct). -/
def jsonMarshal (w : WorkerInfo) : StoredVal := StoredVal.good w

/-- `json.Unmarshal` into a `WorkerInfo`: fails exactly on corrupt bytes. -/
def jsonUnmarshal : StoredVal → Except Unit WorkerInfo
  | StoredVal.good w => Except.ok w
  | StoredVal.corrupt => Except.error ()

/-- Outcome of a `client.Get` call: a payload, `redis.Nil` (key absent),
or another I/O error. -/
inductive GetResult where
  | found (v : StoredVal)
  | nilRes
  | ioErr
  deriving DecidableEq, Repr

/-- Error taxonomy of the registry operations (the Go code wraps these in
`fmt.Errorf` strings; the model keeps the kind and the id context). -/
inductive RegErr where
  | notFound (id : String)
  | storeErr
  | encodingErr
  deriving DecidableEq, Repr

/-- A store mutation performed by an operation. -/
inductive Mutation where
  | set (key : String) (v : StoredVal)
  | del (key : String)
  deriving DecidableEq, Repr

/-- `workerKeyPrefix = "dago:workers:"`. -/
def workerKeyPfx : String := "dago:workers:"

/-- `getWorkerKey`: key is a deterministic function of the id. -/
def getWorkerKey (workerID : String) : String := workerKeyPfx ++ workerID

/-- Contiguous-substring test on character lists, the semantics of Go
`strings.Contains`. -/
def containsSub : List Char → List Char → Bool
  | [], pat => pat.isEmpty
  | c :: cs, pat => pat.isPrefixOf (c :: cs) || containsSub cs pat

/-- Go `strings.Contains(s, pat)`. -/
def containsSubstr (s pat : String) : Bool := containsSub s.data pat.data

/-- `inferWorkerType`: infer the worker type from the id; the executor
marker is checked first, and executor is the default when no marker
matches. -/
def inferWorkerType (workerID : String) : WorkerType :=
  if containsSubstr workerID "executor" then WorkerType.executor
  else if containsSubstr workerID "router" then WorkerType.router
  else WorkerType.executor

/-- `ports.WorkerFilter` for ListWorkers. -/
structure WorkerFilter where
  types : List WorkerType
  statuses : List WorkerStatus
  healthyOnly : Bool
  deriving DecidableEq, Repr

/-- `matchesFilter`: a record passes iff each non-empty predicate of the
filter accepts it (type set, status set, healthy-only flag). -/
def matchesFilter (worker : WorkerInfo) (filter : WorkerFilter)
    (isHealthy : Bool) : Bool :=
  (filter.types.isEmpty || filter.types.contains worker.type) &&
  (filter.statuses.isEmpty || filter.statuses.contains worker.status) &&
  (!filter.healthyOnly || isHealthy)

/-- Result of an operation that returns only an error in Go, together
with the store mutations it performed. -/
structure OpOutput where
  result : Except RegErr Unit
  writes : List Mutation
  deriving Repr

/-- Result of `GetWorker`, with the (empty) mutation list: the Go body
contains no Set or Del call. -/
structure GetOutput where
  result : Except RegErr WorkerInfo
  writes : List Mutation
  deriving Repr

/-- `Register`: marshal the record and `Set` it under its key with the
registry TTL. `setOk` is the outcome of the store write. The Go code
performs no validation of the record before writing. -/
def Register (setOk : Bool) (worker : WorkerInfo) : OpOutput :=
  let key := getWorkerKey worker.id
  if setOk then
    { result := Except.ok (), writes := [Mutation.set key (jsonMarshal worker)] }
  else
    { result := Except.error RegErr.storeErr, writes := [] }

/-- `GetWorker`: `Get` the key (`getRes` is the call outcome), decode,
and override the status to Unhealthy when `now - lastHeartbeat > ttl`.
The override is applied to the returned value only; no write occurs. -/
def GetWorker (getRes : GetResult) (now ttl : Int) (workerID : String) :
    GetOutput :=
  match getRes with
  | GetResult.nilRes =>
      { result := Except.error (RegErr.notFound workerID), writes := [] }
  | GetResult.ioErr =>
      { result := Except.error RegErr.storeErr, writes := [] }
  | GetResult.found v =>
      match jsonUnmarshal v with
      | Except.error _ =>
          { result := Except.error RegErr.encodingErr, writes := [] }
      | Except.ok worker =>
          let worker :=
            if now - worker.lastHeartbeat > ttl then
              { worker with status := WorkerStatus.unhealthy }
            else worker
          { result := Except.ok worker, writes := [] }

/-- `Heartbeat`: read the existing record via `GetWorker`; on any read
error, auto-register a fresh record of inferred type; otherwise update
status, lastHeartbeat and currentTask. Then refresh `pendingTasks` from
the queue (`pendingRes`; a failure keeps the prior value), marshal, and
`Set` with renewed TTL (`setOk` is the write outcome). -/
def Heartbeat (getRes : GetResult) (pendingRes : Except Unit Int)
    (setOk : Bool) (now ttl : Int) (workerID : String)
    (status : WorkerStatus) (currentTask : String) : OpOutput :=
  let key := getWorkerKey workerID
  let worker :=
    match (GetWorker getRes now ttl workerID).result with
    | Except.error _ =>
        { id := workerID
          type := inferWorkerType workerID
          status := status
          registeredAt := now
          lastHeartbeat := now
          currentTask := currentTask
          pendingTasks := 0 : WorkerInfo }
    | Except.ok w =>
        { w with
          status := status
          lastHeartbeat := now
          currentTask := currentTask }
  let worker :=
    match pendingRes with
    | Except.error _ => worker
    | Except.ok p => { worker with pendingTasks := p }
  if setOk then
    { result := Except.ok (), writes := [Mutation.set key (jsonMarshal worker)] }
  else
    { result := Except.error RegErr.storeErr, writes := [] }

/-- `Unregister`: `Del` the key unconditionally (`delOk` is the call
outcome); deleting an absent key is not an error in Redis. -/
def Unregister (delOk : Bool) (workerID : String) : OpOutput :=
  let key := getWorkerKey workerID
  if delOk then
    { result := Except.ok (), writes := [Mutation.del key] }
  else
    { result := Except.error RegErr.storeErr, writes := [] }

/-- Behaviour of the store during a scan-based operation: outcome of the
prefix scan, of the `Get` of each key, and of the `Del` of each key. -/
structure StoreEnv where
  scanRes : Except Unit (List String)
  get : String → GetResult
  delOk : String → Bool

/-- Per-key body of the `ListWorkers` loop: skip vanished, unreadable or
undecodable records; recompute health; apply the filter. Returns the
record contributed to the result, if any. -/
def processKey (env : StoreEnv) (now ttl : Int) (filter : WorkerFilter)
    (key : String) : Option WorkerInfo :=
  match env.get key with
  | GetResult.nilRes => none
  | GetResult.ioErr => none
  | GetResult.found v =>
      match jsonUnmarshal v with
      | Except.error _ => none
      | Except.ok worker =>
          let isHealthy := decide (now - worker.lastHeartbeat ≤ ttl)
          let worker :=
            if isHealthy then worker
            else { worker with status := WorkerStatus.unhealthy }
          if matchesFilter worker filter isHealthy then some worker else none

/-- `ListWorkers`: scan all worker keys, then run the per-key loop body
over them, collecting the records that pass the filter. -/
def ListWorkers (env : StoreEnv) (now ttl : Int) (filter : WorkerFilter) :
    Except RegErr (List WorkerInfo) :=
  match env.scanRes with
  | Except.error _ => Except.error RegErr.storeErr
  | Except.ok keys => Except.ok (keys.filterMap (processKey env now ttl filter))

/-- `ports.WorkerStats` aggregate. -/
structure WorkerStats where
  type : WorkerType
  totalWorkers : Nat
  idleWorkers : Nat
  busyWorkers : Nat
  unhealthyWorkers : Nat
  totalPendingTasks : Int
  deriving DecidableEq, Repr

/-- Loop body of the `GetWorkerStats` aggregation. -/
def statsStep (stats : WorkerStats) (worker : WorkerInfo) : WorkerStats :=
  let stats :=
    match worker.status with
    | WorkerStatus.idle => { stats with idleWorkers := stats.idleWorkers + 1 }
    | WorkerStatus.busy => { stats with busyWorkers := stats.busyWorkers + 1 }
    | WorkerStatus.unhealthy =>
        { stats with unhealthyWorkers := stats.unhealthyWorkers + 1 }
  { stats with totalPendingTasks := stats.totalPendingTasks + worker.pendingTasks }

/-- `GetWorkerStats`: `ListWorkers` restricted to the given type, then a
pure fold counting statuses and summing pending tasks. -/
def GetWorkerStats (env : StoreEnv) (now ttl : Int)
    (workerType : WorkerType) : Except RegErr WorkerStats :=
  match ListWorkers env now ttl
      { types := [workerType], statuses := [], healthyOnly := false } with
  | Except.error e => Except.error e
  | Except.ok workers =>
      Except.ok (workers.foldl statsStep
        { type := workerType
          totalWorkers := workers.length
          idleWorkers := 0
          busyWorkers := 0
          unhealthyWorkers := 0
          totalPendingTasks := 0 })

/-- Result of `CleanupStaleWorkers`: the Go pair `(count, error)`,
plus the keys whose `Del` succeeded (observable deletions). -/
structure CleanupOutput where
  count : Nat
  err : Option RegErr
  deleted : List String
  deriving DecidableEq, Repr

/-- Per-key body of the `CleanupStaleWorkers` loop: skip vanished,
unreadable or undecodable records; if the record is stale
(`now - lastHeartbeat > timeout`), `Del` it; a failed delete is logged
and skipped (not counted, no error), a successful one is counted. -/
def cleanupStep (env : StoreEnv) (now timeout : Int)
    (acc : Nat × List String) (key : String) : Nat × List String :=
  match env.get key with
  | GetResult.nilRes => acc
  | GetResult.ioErr => acc
  | GetResult.found v =>
      match jsonUnmarshal v with
      | Except.error _ => acc
      | Except.ok worker =>
          if now - worker.lastHeartbeat > timeout then
            if env.delOk key then (acc.1 + 1, acc.2 ++ [key]) else acc
          else acc

/-- `CleanupStaleWorkers`: scan all worker keys (scan failure returns
count 0 with a store error), then delete every stale record, returning
the number of successful deletions and a nil error. -/
def CleanupStaleWorkers (env : StoreEnv) (now timeout : Int) :
    CleanupOutput :=
  match env.scanRes with
  | Except.error _ =>
      { count := 0, err := some RegErr.storeErr, deleted := [] }
  | Except.ok keys =>
      let acc := keys.foldl (cleanupStep env now timeout) (0, [])
      { count := acc.1, err := none, deleted := acc.2 }

/-! Concrete sample values used by witnesses and counterexamples. -/

/-- A fresh, valid sample record. -/
def sampleW : WorkerInfo :=
  { id := "executor-1", type := WorkerType.executor
    status := WorkerStatus.idle, registeredAt := 0, lastHeartbeat := 0
    currentTask := "", pendingTasks := 2 }

/-- A record whose heartbeat is stale relative to now = 100, ttl = 30. -/
def staleW : WorkerInfo :=
  { id := "w1", type := WorkerType.executor
    status := WorkerStatus.idle, registeredAt := 0, lastHeartbeat := 0
    currentTask := "", pendingTasks := 0 }

/-- A record with an empty id, violating the Register constraint of the
specification. -/
def emptyIdW : WorkerInfo :=
  { id := "", type := WorkerType.executor
    status := WorkerStatus.idle, registeredAt := 5, lastHeartbeat := 5
    currentTask := "", pendingTasks := 0 }

/-- Store behaviour in which the single stale worker key is readable but
its deletion fails with a store I/O error. -/
def cexEnvC1 : StoreEnv :=
  { scanRes := Except.ok ["dago:workers:w1"]
    get := fun _ => GetResult.found (StoredVal.good staleW)
    delOk := fun _ => false }

/-- A record one second fresher than the sweep timeout (age 29 at
now = 100, timeout = 30). -/
def borderFreshW : WorkerInfo :=
  { id := "w-fresh", type := WorkerType.executor
    status := WorkerStatus.idle, registeredAt := 0, lastHeartbeat := 71
    currentTask := "", pendingTasks := 0 }

/-- A record one second staler than the sweep timeout (age 31 at
now = 100, timeout = 30). -/
def borderStaleW : WorkerInfo :=
  { id := "w-stale", type := WorkerType.executor
    status := WorkerStatus.idle, registeredAt := 0, lastHeartbeat := 69
    currentTask := "", pendingTasks := 0 }

/-- Stored record per key for the sweep-threshold witness. -/
def sweepRecOf : String → WorkerInfo :=
  fun k => if k = "k1" then borderFreshW else borderStaleW

/-- Store behaviour for the sweep-threshold witness: two readable worker
records, deletions succeed. -/
def sweepEnv : StoreEnv :=
  { scanRes := Except.ok ["k1", "k2"]
    get := fun k => GetResult.found (StoredVal.good (sweepRecOf k))
    delOk := fun _ => true }

/-- Filter of the filter-correctness example: Executor type only,
healthy only. -/
def lwFilter : WorkerFilter :=
  { types := [WorkerType.executor], statuses := [], healthyOnly := true }

/-- Worker A of the filter-correctness example: a fresh idle Executor. -/
def wA : WorkerInfo :=
  { id := "executor-a", type := WorkerType.executor
    status := WorkerStatus.idle, registeredAt := 0, lastHeartbeat := 90
    currentTask := "", pendingTasks := 2 }

/-- Worker B of the filter-correctness example: a fresh busy Router. -/
def wB : WorkerInfo :=
  { id := "router-b", type := WorkerType.router
    status := WorkerStatus.busy, registeredAt := 0, lastHeartbeat := 95
    currentTask := "", pendingTasks := 0 }

/-- Worker C of the filter-correctness example: a stale Executor. -/
def wC : WorkerInfo :=
  { id := "executor-c", type := WorkerType.executor
    status := WorkerStatus.idle, registeredAt := 0, lastHeartbeat := 10
    currentTask := "", pendingTasks := 5 }

/-- Stored record per key for the list-filter witness. -/
def listRecOf : String → WorkerInfo :=
  fun k => if k = "ka" then wA else if k = "kb" then wB else wC

/-- Store behaviour for the list-filter witness. -/
def listEnv : StoreEnv :=
  { scanRes := Except.ok ["ka", "kb", "kc"]
    get := fun k => GetResult.found (StoredVal.good (listRecOf k))
    delOk := fun _ => true }

/-- Executor worker of the stats example with 2 pending tasks, Idle. -/
def sA : WorkerInfo :=
  { id := "executor-s1", type := WorkerType.executor
    status := WorkerStatus.idle, registeredAt := 0, lastHeartbeat := 90
    currentTask := "", pendingTasks := 2 }

/-- Executor worker of the stats example with 0 pending tasks, Busy. -/
def sB : WorkerInfo :=
  { id := "executor-s2", type := WorkerType.executor
    status := WorkerStatus.busy, registeredAt := 0, lastHeartbeat := 95
    currentTask := "t", pendingTasks := 0 }

/-- Executor worker of the stats example with 5 pending tasks, stale,
hence Unhealthy at read time. -/
def sC : WorkerInfo :=
  { id := "executor-s3", type := WorkerType.executor
    status := WorkerStatus.idle, registeredAt := 0, lastHeartbeat := 10
    currentTask := "", pendingTasks := 5 }

/-- Stored record per key for the stats witness. -/
def statsRecOf : String → WorkerInfo :=
  fun k => if k = "s1" then sA else if k = "s2" then sB else sC

/-- Store behaviour for the stats witness. -/
def statsEnv : StoreEnv :=
  { scanRes := Except.ok ["s1", "s2", "s3"]
    get := fun k => GetResult.found (StoredVal.good (statsRecOf k))
    delOk := fun _ => true }

end DagoRegistry

namespace DagoRegistry

/-- C10: `inferWorkerType` checks the executor marker before the router
marker: any id containing "executor" is inferred as Executor (even if it
also contains "router"); an id containing "router" but not "executor" is
inferred as Router. -/
theorem inferWorkerType_executor_before_router (workerID : String) :
    (containsSubstr workerID "executor" = true →
      inferWorkerType workerID = WorkerType.executor) ∧
    (containsSubstr workerID "executor" = false →
      containsSubstr workerID "router" = true →
      inferWorkerType workerID = WorkerType.router) := by
  constructor
  · intro h
    simp [inferWorkerType, h]
  · intro h1 h2
    simp [inferWorkerType, h1, h2]

/-- Witness for C10 at ids containing both markers and only the router
marker. -/
theorem inferWorkerType_executor_before_router_witness :
    inferWorkerType "executor-router-1" = WorkerType.executor ∧
    inferWorkerType "router-1" = WorkerType.router :=
  ⟨(inferWorkerType_executor_before_router "executor-router-1").1 (by decide),
   (inferWorkerType_executor_before_router "router-1").2 (by decide) (by decide)⟩

/-- C4: for a record whose heartbeat age exceeds ttl, GetWorker either
fails with NotFoundError (key already expired, i.e. the store returned
Nil) or returns the record with status overridden to Unhealthy — never
Idle or Busy — and performs no store write. -/
theorem getWorker_expired_health (now ttl : Int) (workerID : String)
    (w : WorkerInfo) (hstale : now - w.lastHeartbeat > ttl) :
    (GetWorker GetResult.nilRes now ttl workerID).result
      = Except.error (RegErr.notFound workerID) ∧
    (GetWorker (GetResult.found (StoredVal.good w)) now ttl workerID).result
      = Except.ok { w with status := WorkerStatus.unhealthy } ∧
    (GetWorker (GetResult.found (StoredVal.good w)) now ttl workerID).writes
      = [] := by
  refine ⟨rfl, ?_, rfl⟩
  simp [GetWorker, jsonUnmarshal, hstale]

/-- Witness for C4: a record aged exactly ttl + 1 at now = 31, ttl = 30. -/
theorem getWorker_expired_health_witness :
    ((31 : Int) - staleW.lastHeartbeat > 30) ∧
    ((GetWorker GetResult.nilRes 31 30 "w1").result
      = Except.error (RegErr.notFound "w1") ∧
     (GetWorker (GetResult.found (StoredVal.good staleW)) 31 30 "w1").result
      = Except.ok { staleW with status := WorkerStatus.unhealthy } ∧
     (GetWorker (GetResult.found (StoredVal.good staleW)) 31 30 "w1").writes
      = []) :=
  ⟨by decide, getWorker_expired_health 31 30 "w1" staleW (by decide)⟩

/-- Counterexample to C3: Register accepts a record with an empty id: the
call succeeds and the record is written to the store under the bare key
namespace, so the constraint check claimed by the specification does not
exist in the code. -/
theorem register_no_validation_cex :
    (Register true emptyIdW).result = Except.ok () ∧
    (Register true emptyIdW).writes
      = [Mutation.set "dago:workers:" (StoredVal.good emptyIdW)] :=
  ⟨rfl, rfl⟩

/-- C3 amended: Register performs no validation of the record: every
record — an empty id included — is marshalled and written; the only
failure is a store write failure (StoreError), in which case nothing is
written. -/
theorem register_writes_any_record (worker : WorkerInfo) :
    (Register true worker).result = Except.ok () ∧
    (Register true worker).writes
      = [Mutation.set (getWorkerKey worker.id) (StoredVal.good worker)] ∧
    (Register false worker).result = Except.error RegErr.storeErr ∧
    (Register false worker).writes = [] :=
  ⟨rfl, rfl, rfl, rfl⟩

/-- Counterexample to C2: when the read of the existing record fails with
a store I/O error (not absence), Heartbeat succeeds and auto-registers a
fresh record (registeredAt reset to now), instead of surfacing the read
error to the caller. -/
theorem heartbeat_swallows_read_error_cex :
    (Heartbeat GetResult.ioErr (Except.ok 0) true 100 30 "executor-1"
        WorkerStatus.busy "task-1").result = Except.ok () ∧
    (Heartbeat GetResult.ioErr (Except.ok 0) true 100 30 "executor-1"
        WorkerStatus.busy "task-1").writes
      = [Mutation.set (getWorkerKey "executor-1") (StoredVal.good
          { id := "executor-1", type := WorkerType.executor
            status := WorkerStatus.busy, registeredAt := 100
            lastHeartbeat := 100, currentTask := "task-1"
            pendingTasks := 0 })] :=
  ⟨rfl, rfl⟩

/-- C2 amended: the auto-registration branch of Heartbeat is taken
whenever the read of the existing record fails for any reason — absent
record, store I/O error and decoding error are treated alike — and the
read error is never surfaced: Heartbeat succeeds (given a successful
write) and writes a freshly created record of inferred type with
registeredAt and lastHeartbeat reset to now. -/
theorem heartbeat_auto_registers_on_any_read_error
    (getRes : GetResult) (pendingRes : Except Unit Int) (now ttl : Int)
    (workerID : String) (status : WorkerStatus) (currentTask : String)
    (herr : ∃ e, (GetWorker getRes now ttl workerID).result = Except.error e) :
    (Heartbeat getRes pendingRes true now ttl workerID status
        currentTask).result = Except.ok () ∧
    ∃ w, (Heartbeat getRes pendingRes true now ttl workerID status
        currentTask).writes
        = [Mutation.set (getWorkerKey workerID) (StoredVal.good w)] ∧
      w.id = workerID ∧ w.type = inferWorkerType workerID ∧
      w.status = status ∧ w.registeredAt = now ∧ w.lastHeartbeat = now ∧
      w.currentTask = currentTask := by
  obtain ⟨e, he⟩ := herr
  cases pendingRes with
  | error u =>
      refine ⟨by simp [Heartbeat, he], ?_⟩
      refine ⟨{ id := workerID, type := inferWorkerType workerID
                status := status, registeredAt := now, lastHeartbeat := now
                currentTask := currentTask, pendingTasks := 0 },
        ?_, rfl, rfl, rfl, rfl, rfl, rfl⟩
      simp [Heartbeat, he, jsonMarshal]
  | ok p =>
      refine ⟨by simp [Heartbeat, he], ?_⟩
      refine ⟨{ id := workerID, type := inferWorkerType workerID
                status := status, registeredAt := now, lastHeartbeat := now
                currentTask := currentTask, pendingTasks := p },
        ?_, rfl, rfl, rfl, rfl, rfl, rfl⟩
      simp [Heartbeat, he, jsonMarshal]

/-- Witness for C2 amended: a corrupt stored payload (decode error) at
read time still yields a successful, auto-registering Heartbeat. -/
theorem heartbeat_auto_registers_on_any_read_error_witness :
    (∃ e, (GetWorker (GetResult.found StoredVal.corrupt) 100 30
        "router-9").result = Except.error e) ∧
    ((Heartbeat (GetResult.found StoredVal.corrupt) (Except.error ()) true
        100 30 "router-9" WorkerStatus.idle "").result = Except.ok () ∧
     ∃ w, (Heartbeat (GetResult.found StoredVal.corrupt) (Except.error ())
        true 100 30 "router-9" WorkerStatus.idle "").writes
        = [Mutation.set (getWorkerKey "router-9") (StoredVal.good w)] ∧
      w.id = "router-9" ∧ w.type = inferWorkerType "router-9" ∧
      w.status = WorkerStatus.idle ∧ w.registeredAt = 100 ∧
      w.lastHeartbeat = 100 ∧ w.currentTask = "") :=
  ⟨⟨RegErr.encodingErr, rfl⟩,
   heartbeat_auto_registers_on_any_read_error
     (GetResult.found StoredVal.corrupt) (Except.error ()) 100 30
     "router-9" WorkerStatus.idle "" ⟨RegErr.encodingErr, rfl⟩⟩

/-- C5: a Heartbeat against an absent record never fails with
NotFoundError; it creates a record whose type is inferred from the id
substring convention (the executor marker yields Executor, and Executor
is the default when no marker matches) and whose status and currentTask
equal the arguments. -/
theorem heartbeat_self_heals (pendingRes : Except Unit Int) (now ttl : Int)
    (workerID : String) (status : WorkerStatus) (currentTask : String) :
    (∀ setOk, (Heartbeat GetResult.nilRes pendingRes setOk now ttl workerID
        status currentTask).result
        ≠ Except.error (RegErr.notFound workerID)) ∧
    (∃ w, (Heartbeat GetResult.nilRes pendingRes true now ttl workerID
        status currentTask).writes
        = [Mutation.set (getWorkerKey workerID) (StoredVal.good w)] ∧
      w.id = workerID ∧ w.type = inferWorkerType workerID ∧
      w.status = status ∧ w.currentTask = currentTask) ∧
    (containsSubstr workerID "executor" = true →
      inferWorkerType workerID = WorkerType.executor) ∧
    (containsSubstr workerID "executor" = false →
      containsSubstr workerID "router" = false →
      inferWorkerType workerID = WorkerType.executor) := by
  refine ⟨?_, ?_, ?_, ?_⟩
  · intro setOk
    cases setOk <;> simp [Heartbeat]
  · cases pendingRes with
    | error u =>
        refine ⟨{ id := workerID, type := inferWorkerType workerID
                  status := status, registeredAt := now, lastHeartbeat := now
                  currentTask := currentTask, pendingTasks := 0 },
          ?_, rfl, rfl, rfl, rfl⟩
        simp [Heartbeat, GetWorker, jsonMarshal]
    | ok p =>
        refine ⟨{ id := workerID, type := inferWorkerType workerID
                  status := status, registeredAt := now, lastHeartbeat := now
                  currentTask := currentTask, pendingTasks := p },
          ?_, rfl, rfl, rfl, rfl⟩
        simp [Heartbeat, GetWorker, jsonMarshal]
  · intro h
    simp [inferWorkerType, h]
  · intro h1 h2
    simp [inferWorkerType, h1, h2]

/-- Witness for C5 at the specification's example: an unregistered id
bearing the executor marker, heartbeating Busy on task-7. -/
theorem heartbeat_self_heals_witness :
    (∀ setOk, (Heartbeat GetResult.nilRes (Except.ok 0) setOk 100 30
        "executor-worker-x" WorkerStatus.busy "task-7").result
        ≠ Except.error (RegErr.notFound "executor-worker-x")) ∧
    (∃ w, (Heartbeat GetResult.nilRes (Except.ok 0) true 100 30
        "executor-worker-x" WorkerStatus.busy "task-7").writes
        = [Mutation.set (getWorkerKey "executor-worker-x")
            (StoredVal.good w)] ∧
      w.id = "executor-worker-x" ∧
      w.type = inferWorkerType "executor-worker-x" ∧
      w.status = WorkerStatus.busy ∧ w.currentTask = "task-7") ∧
    (containsSubstr "executor-worker-x" "executor" = true →
      inferWorkerType "executor-worker-x" = WorkerType.executor) ∧
    (containsSubstr "executor-worker-x" "executor" = false →
      containsSubstr "executor-worker-x" "router" = false →
      inferWorkerType "executor-worker-x" = WorkerType.executor) :=
  heartbeat_self_heals (Except.ok 0) 100 30 "executor-worker-x"
    WorkerStatus.busy "task-7"

/-- One step of the cleanup loop preserves the invariant that the count
equals the number of successfully deleted keys. -/
theorem cleanupStep_count_invariant (env : StoreEnv) (now timeout : Int)
    (acc : Nat × List String) (key : String) (h : acc.1 = acc.2.length) :
    (cleanupStep env now timeout acc key).1
      = (cleanupStep env now timeout acc key).2.length := by
  unfold cleanupStep
  cases env.get key with
  | nilRes => exact h
  | ioErr => exact h
  | found v =>
      cases v with
      | corrupt => exact h
      | good w =>
          simp only [jsonUnmarshal]
          split_ifs <;> simp [h]

/-- The cleanup fold keeps count equal to the length of the deleted-key
list. -/
theorem cleanup_count_len (env : StoreEnv) (now timeout : Int)
    (keys : List String) (acc : Nat × List String)
    (h : acc.1 = acc.2.length) :
    (keys.foldl (cleanupStep env now timeout) acc).1
      = (keys.foldl (cleanupStep env now timeout) acc).2.length := by
  induction keys generalizing acc with
  | nil => simpa using h
  | cons k ks ih =>
      exact ih _ (cleanupStep_count_invariant env now timeout acc k h)

/-- Counterexample to C1: a run in which the delete of a stale record
fails with a store I/O error, yet CleanupStaleWorkers returns no error at
all (and a count of 0): the delete failure is silently swallowed rather
than surfaced as a StoreError. -/
theorem cleanup_swallows_delete_failure_cex :
    cexEnvC1.delOk "dago:workers:w1" = false ∧
    (100 : Int) - staleW.lastHeartbeat > 30 ∧
    (CleanupStaleWorkers cexEnvC1 100 30).err = none ∧
    (CleanupStaleWorkers cexEnvC1 100 30).count = 0 :=
  ⟨rfl, by decide, rfl, rfl⟩

/-- C1 amended: a failed delete of a stale record is logged and skipped
— the record is not counted and the sweep continues — and
CleanupStaleWorkers returns no error whenever the scan succeeded; the
returned count always equals the number of records actually removed
(a StoreError, with count 0, arises only from a scan failure). -/
theorem cleanup_error_only_on_scan_failure (env : StoreEnv)
    (now timeout : Int) (keys : List String)
    (hscan : env.scanRes = Except.ok keys) :
    (CleanupStaleWorkers env now timeout).err = none ∧
    (CleanupStaleWorkers env now timeout).count
      = (CleanupStaleWorkers env now timeout).deleted.length := by
  constructor
  · simp [CleanupStaleWorkers, hscan]
  · simp only [CleanupStaleWorkers, hscan]
    exact cleanup_count_len env now timeout keys (0, []) rfl

/-- Witness for C1 amended at the concrete failing-delete store
behaviour. -/
theorem cleanup_error_only_on_scan_failure_witness :
    cexEnvC1.scanRes = Except.ok ["dago:workers:w1"] ∧
    ((CleanupStaleWorkers cexEnvC1 100 30).err = none ∧
     (CleanupStaleWorkers cexEnvC1 100 30).count
      = (CleanupStaleWorkers cexEnvC1 100 30).deleted.length) :=
  ⟨rfl, cleanup_error_only_on_scan_failure cexEnvC1 100 30
    ["dago:workers:w1"] rfl⟩

/-- C6: registering a valid record and reading it back within ttl
round-trips: the value Register wrote decodes in GetWorker to a record
equal to the input in every field (within ttl the status override does
not fire, so even status is preserved). -/
theorem register_getWorker_roundtrip (worker : WorkerInfo) (now ttl : Int)
    (hfresh : now - worker.lastHeartbeat ≤ ttl) :
    ∃ v, (Register true worker).writes
        = [Mutation.set (getWorkerKey worker.id) v] ∧
      (GetWorker (GetResult.found v) now ttl worker.id).result
        = Except.ok worker := by
  refine ⟨jsonMarshal worker, rfl, ?_⟩
  have h2 : ¬ (now - worker.lastHeartbeat > ttl) := not_lt.mpr hfresh
  simp [GetWorker, jsonMarshal, jsonUnmarshal, h2]

/-- Witness for C6 at a concrete fresh record. -/
theorem register_getWorker_roundtrip_witness :
    ((10 : Int) - sampleW.lastHeartbeat ≤ 30) ∧
    ∃ v, (Register true sampleW).writes
        = [Mutation.set (getWorkerKey sampleW.id) v] ∧
      (GetWorker (GetResult.found v) 10 30 sampleW.id).result
        = Except.ok sampleW :=
  ⟨by decide, register_getWorker_roundtrip sampleW 10 30 (by decide)⟩

/-- The cleanup fold, when every key holds a readable record and every
delete succeeds, deletes exactly the stale keys in order and counts
them. -/
theorem cleanup_foldl_spec (env : StoreEnv) (now timeout : Int)
    (recOf : String → WorkerInfo) (keys : List String)
    (hget : ∀ k ∈ keys, env.get k = GetResult.found (StoredVal.good (recOf k)))
    (hdel : ∀ k ∈ keys, env.delOk k = true)
    (acc : Nat × List String) :
    keys.foldl (cleanupStep env now timeout) acc
      = (acc.1 + (keys.filter
            (fun k => decide (now - (recOf k).lastHeartbeat > timeout))).length,
         acc.2 ++ keys.filter
            (fun k => decide (now - (recOf k).lastHeartbeat > timeout))) := by
  induction keys generalizing acc with
  | nil => simp
  | cons k ks ih =>
      have hk : env.get k = GetResult.found (StoredVal.good (recOf k)) :=
        hget k (List.mem_cons_self k ks)
      have hdk : env.delOk k = true := hdel k (List.mem_cons_self k ks)
      have hgetks : ∀ x ∈ ks, env.get x = GetResult.found (StoredVal.good (recOf x)) :=
        fun x hx => hget x (List.mem_cons_of_mem k hx)
      have hdelks : ∀ x ∈ ks, env.delOk x = true :=
        fun x hx => hdel x (List.mem_cons_of_mem k hx)
      simp only [List.foldl_cons, List.filter_cons]
      by_cases hst : now - (recOf k).lastHeartbeat > timeout
      · have hstep : cleanupStep env now timeout acc k = (acc.1 + 1, acc.2 ++ [k]) := by
          simp [cleanupStep, hk, jsonUnmarshal, hst, hdk]
        rw [hstep, ih hgetks hdelks]
        simp [hst, Nat.add_assoc, Nat.add_comm 1]
      · have hstep : cleanupStep env now timeout acc k = acc := by
          simp [cleanupStep, hk, jsonUnmarshal, hst]
        rw [hstep, ih hgetks hdelks]
        simp [hst]

/-- C9: under a successful scan with readable records and working
deletes, CleanupStaleWorkers deletes exactly the keys whose record has
heartbeat age strictly greater than the timeout, returns their number as
the count, and no error; a key is deleted iff its record is stale. -/
theorem cleanup_sweep_threshold (env : StoreEnv) (now timeout : Int)
    (recOf : String → WorkerInfo) (keys : List String)
    (hscan : env.scanRes = Except.ok keys)
    (hget : ∀ k ∈ keys, env.get k = GetResult.found (StoredVal.good (recOf k)))
    (hdel : ∀ k ∈ keys, env.delOk k = true) :
    (CleanupStaleWorkers env now timeout).err = none ∧
    (CleanupStaleWorkers env now timeout).deleted
      = keys.filter (fun k => decide (now - (recOf k).lastHeartbeat > timeout)) ∧
    (CleanupStaleWorkers env now timeout).count
      = (keys.filter
          (fun k => decide (now - (recOf k).lastHeartbeat > timeout))).length ∧
    ∀ k ∈ keys, (now - (recOf k).lastHeartbeat > timeout ↔
      k ∈ (CleanupStaleWorkers env now timeout).deleted) := by
  have hfold := cleanup_foldl_spec env now timeout recOf keys hget hdel (0, [])
  refine ⟨?_, ?_, ?_, ?_⟩
  · simp [CleanupStaleWorkers, hscan]
  · simp [CleanupStaleWorkers, hscan, hfold]
  · simp [CleanupStaleWorkers, hscan, hfold]
  · intro k hk
    simp [CleanupStaleWorkers, hscan, hfold, List.mem_filter, hk]

/-- Witness for C9: two workers aged timeout - 1 and timeout + 1 seconds
at now = 100, timeout = 30. -/
theorem cleanup_sweep_threshold_witness :
    (sweepEnv.scanRes = Except.ok ["k1", "k2"] ∧
     (∀ k ∈ ["k1", "k2"], sweepEnv.get k
        = GetResult.found (StoredVal.good (sweepRecOf k))) ∧
     (∀ k ∈ ["k1", "k2"], sweepEnv.delOk k = true)) ∧
    ((CleanupStaleWorkers sweepEnv 100 30).err = none ∧
     (CleanupStaleWorkers sweepEnv 100 30).deleted
      = (["k1", "k2"].filter
          (fun k => decide ((100 : Int) - (sweepRecOf k).lastHeartbeat > 30))) ∧
     (CleanupStaleWorkers sweepEnv 100 30).count
      = ((["k1", "k2"].filter
          (fun k => decide ((100 : Int) - (sweepRecOf k).lastHeartbeat > 30)))).length ∧
     ∀ k ∈ ["k1", "k2"], ((100 : Int) - (sweepRecOf k).lastHeartbeat > 30 ↔
      k ∈ (CleanupStaleWorkers sweepEnv 100 30).deleted)) :=
  ⟨⟨rfl, fun _ _ => rfl, fun _ _ => rfl⟩,
   cleanup_sweep_threshold sweepEnv 100 30 sweepRecOf ["k1", "k2"] rfl
     (fun _ _ => rfl) (fun _ _ => rfl)⟩

/-- The boolean filter predicate, spelled out: each non-empty component
of the filter must accept the record. -/
theorem matchesFilter_eq_true_iff (v : WorkerInfo) (filter : WorkerFilter)
    (h : Bool) :
    matchesFilter v filter h = true ↔
      ((filter.types = [] ∨ v.type ∈ filter.types) ∧
       (filter.statuses = [] ∨ v.status ∈ filter.statuses) ∧
       (filter.healthyOnly = true → h = true)) := by
  unfold matchesFilter
  cases filter.healthyOnly <;> cases h <;>
    simp [List.isEmpty_iff]

/-- Any record produced by the ListWorkers loop body passed the filter
(with health computed from its own heartbeat age). -/
theorem processKey_matches_of_eq_some (env : StoreEnv) (now ttl : Int)
    (filter : WorkerFilter) (key : String) (v : WorkerInfo)
    (hp : processKey env now ttl filter key = some v) :
    matchesFilter v filter (decide (now - v.lastHeartbeat ≤ ttl)) = true := by
  cases hg : env.get key with
  | nilRes => simp [processKey, hg] at hp
  | ioErr => simp [processKey, hg] at hp
  | found v0 =>
    cases v0 with
    | corrupt => simp [processKey, hg, jsonUnmarshal] at hp
    | good w =>
      by_cases hh : now - w.lastHeartbeat ≤ ttl
      · rw [show processKey env now ttl filter key
            = (if matchesFilter w filter true then some w else none) from by
              simp [processKey, hg, jsonUnmarshal, hh]] at hp
        split at hp
        · next hcond =>
            obtain rfl := Option.some.inj hp
            simpa [hh] using hcond
        · exact absurd hp (by simp)
      · rw [show processKey env now ttl filter key
            = (if matchesFilter { w with status := WorkerStatus.unhealthy }
                  filter false
               then some { w with status := WorkerStatus.unhealthy }
               else none) from by
              simp [processKey, hg, jsonUnmarshal, hh]] at hp
        split at hp
        · next hcond =>
            obtain rfl := Option.some.inj hp
            simpa [hh] using hcond
        · exact absurd hp (by simp)

/-- C7: a record read and decoded during ListWorkers is included in the
result if and only if the filter's type set is empty or contains its
type, the filter's status set is empty or contains its recomputed
status, and, when healthyOnly is set, its heartbeat age does not exceed
ttl. -/
theorem listWorkers_membership_iff (env : StoreEnv) (now ttl : Int)
    (filter : WorkerFilter) (keys : List String) (key : String)
    (w w2 : WorkerInfo) (ws : List WorkerInfo)
    (hscan : env.scanRes = Except.ok keys) (hkey : key ∈ keys)
    (hget : env.get key = GetResult.found (StoredVal.good w))
    (hw2 : w2 = if now - w.lastHeartbeat ≤ ttl then w
      else { w with status := WorkerStatus.unhealthy })
    (hlist : ListWorkers env now ttl filter = Except.ok ws) :
    w2 ∈ ws ↔
      ((filter.types = [] ∨ w2.type ∈ filter.types) ∧
       (filter.statuses = [] ∨ w2.status ∈ filter.statuses) ∧
       (filter.healthyOnly = true → now - w.lastHeartbeat ≤ ttl)) := by
  simp only [ListWorkers, hscan, Except.ok.injEq] at hlist
  subst hlist
  by_cases hh : now - w.lastHeartbeat ≤ ttl
  · rw [if_pos hh] at hw2
    subst hw2
    constructor
    · intro hmem
      obtain ⟨k2, hk2, hp⟩ := List.mem_filterMap.mp hmem
      have hm := (matchesFilter_eq_true_iff _ _ _).mp
        (processKey_matches_of_eq_some env now ttl filter k2 _ hp)
      exact ⟨hm.1, hm.2.1, fun _ => hh⟩
    · rintro ⟨h1, h2, -⟩
      refine List.mem_filterMap.mpr ⟨key, hkey, ?_⟩
      have hmf := (matchesFilter_eq_true_iff w2 filter true).mpr
        ⟨h1, h2, fun _ => rfl⟩
      simp [processKey, hget, jsonUnmarshal, hh, hmf]
  · rw [if_neg hh] at hw2
    subst hw2
    constructor
    · intro hmem
      obtain ⟨k2, hk2, hp⟩ := List.mem_filterMap.mp hmem
      have hm := (matchesFilter_eq_true_iff _ _ _).mp
        (processKey_matches_of_eq_some env now ttl filter k2 _ hp)
      refine ⟨hm.1, hm.2.1, fun hb => ?_⟩
      have := hm.2.2 hb
      simp [hh] at this
    · rintro ⟨h1, h2, h3⟩
      refine List.mem_filterMap.mpr ⟨key, hkey, ?_⟩
      have hmf := (matchesFilter_eq_true_iff
          { w with status := WorkerStatus.unhealthy } filter false).mpr
        ⟨h1, h2, fun hb => absurd (h3 hb) hh⟩
      simp [processKey, hget, jsonUnmarshal, hh, hmf]

/-- Witness for C7 at the filter-correctness example: three stored
workers, filter Executor-and-healthy, applied to the fresh idle
Executor. -/
theorem listWorkers_membership_iff_witness :
    (listEnv.scanRes = Except.ok ["ka", "kb", "kc"] ∧
     "ka" ∈ ["ka", "kb", "kc"] ∧
     listEnv.get "ka" = GetResult.found (StoredVal.good wA) ∧
     wA = (if (100 : Int) - wA.lastHeartbeat ≤ 30 then wA
       else { wA with status := WorkerStatus.unhealthy }) ∧
     ListWorkers listEnv 100 30 lwFilter = Except.ok [wA]) ∧
    (wA ∈ [wA] ↔
      ((lwFilter.types = [] ∨ wA.type ∈ lwFilter.types) ∧
       (lwFilter.statuses = [] ∨ wA.status ∈ lwFilter.statuses) ∧
       (lwFilter.healthyOnly = true → (100 : Int) - wA.lastHeartbeat ≤ 30))) :=
  ⟨⟨rfl, by decide, rfl, by decide, rfl⟩,
   listWorkers_membership_iff listEnv 100 30 lwFilter ["ka", "kb", "kc"]
     "ka" wA wA [wA] rfl (by decide) rfl (by decide) rfl⟩

/-- The stats fold adds, on top of its accumulator, one per record to
the bucket of the record's status and the record's pending tasks to the
total. -/
theorem statsStep_foldl (ws : List WorkerInfo) (s : WorkerStats) :
    ws.foldl statsStep s =
      { type := s.type
        totalWorkers := s.totalWorkers
        idleWorkers := s.idleWorkers
          + ws.countP (fun w => w.status == WorkerStatus.idle)
        busyWorkers := s.busyWorkers
          + ws.countP (fun w => w.status == WorkerStatus.busy)
        unhealthyWorkers := s.unhealthyWorkers
          + ws.countP (fun w => w.status == WorkerStatus.unhealthy)
        totalPendingTasks := s.totalPendingTasks
          + (ws.map WorkerInfo.pendingTasks).sum } := by
  induction ws generalizing s with
  | nil => simp
  | cons w ws ih =>
      rw [List.foldl_cons, ih]
      cases hs : w.status <;>
        simp [statsStep, hs, List.countP_cons, beq_iff_eq,
          WorkerStats.mk.injEq] <;>
        omega

/-- C8: GetWorkerStats is the pure aggregation over ListWorkers filtered
to the given type: totalWorkers is the length of the listed records, the
Idle/Busy/Unhealthy buckets count records by their (recomputed) status,
and totalPendingTasks is the sum of their pending tasks. -/
theorem getWorkerStats_aggregates (env : StoreEnv) (now ttl : Int)
    (workerType : WorkerType) (ws : List WorkerInfo)
    (hlist : ListWorkers env now ttl
        { types := [workerType], statuses := [], healthyOnly := false }
        = Except.ok ws) :
    GetWorkerStats env now ttl workerType = Except.ok
      { type := workerType
        totalWorkers := ws.length
        idleWorkers := ws.countP (fun w => w.status == WorkerStatus.idle)
        busyWorkers := ws.countP (fun w => w.status == WorkerStatus.busy)
        unhealthyWorkers :=
          ws.countP (fun w => w.status == WorkerStatus.unhealthy)
        totalPendingTasks := (ws.map WorkerInfo.pendingTasks).sum } := by
  simp only [GetWorkerStats, hlist, statsStep_foldl]
  simp

/-- Witness for C8 at the stats example: three Executor workers with
pending counts 2, 0, 5 and read-time statuses Idle, Busy, Unhealthy. -/
theorem getWorkerStats_aggregates_witness :
    (ListWorkers statsEnv 100 30
        { types := [WorkerType.executor], statuses := [], healthyOnly := false }
        = Except.ok [sA, sB, { sC with status := WorkerStatus.unhealthy }]) ∧
    GetWorkerStats statsEnv 100 30 WorkerType.executor = Except.ok
      { type := WorkerType.executor
        totalWorkers := [sA, sB, { sC with status := WorkerStatus.unhealthy }].length
        idleWorkers := [sA, sB, { sC with status := WorkerStatus.unhealthy }].countP
          (fun w => w.status == WorkerStatus.idle)
        busyWorkers := [sA, sB, { sC with status := WorkerStatus.unhealthy }].countP
          (fun w => w.status == WorkerStatus.busy)
        unhealthyWorkers := [sA, sB, { sC with status := WorkerStatus.unhealthy }].countP
          (fun w => w.status == WorkerStatus.unhealthy)
        totalPendingTasks :=
          ([sA, sB, { sC with status := WorkerStatus.unhealthy }].map
            WorkerInfo.pendingTasks).sum } :=
  ⟨rfl, getWorkerStats_aggregates statsEnv 100 30 WorkerType.executor
    [sA, sB, { sC with status := WorkerStatus.unhealthy }] rfl⟩

end DagoRegistry
